import Mathlib

/-!
Shallow embedding of `blockchain-toolbox`'s token-acquire-price tools:
`token-trade-history.py` (chain scanner, event store, classifier) and
`calculate_loss_free_price.py` (price cache, retry loop, cost-basis fold).

Conventions of the embedding:
* Python `float` amounts and prices are modelled as exact rationals `ℚ`
  (every operation the code performs on them is +, -, *, /).
* Python exceptions that escape a function are modelled with `Except`;
  exceptions the code catches are part of the modelled control flow.
* The RPC provider / HTTP endpoint is an oracle passed in as a function.
* Python dicts persisted as JSON are association lists.
-/

namespace Toolbox

/-- A decoded ERC-20 Transfer event, as built in `get_all_transfer_events`
(`token-trade-history.py` lines 94-100).  `src`/`dst` stand for the CSV
columns named `from`/`to` (Lean keywords). -/
structure TransferEvent where
  src : String
  dst : String
  amount : Nat
  block_number : Nat
  timestamp : String
deriving DecidableEq, Repr

/-- A labeled trade, as built in `process_transfer_events`
(`token-trade-history.py` lines 235-242). -/
structure LabeledTrade where
  label : String
  amount : ℚ
  src : String
  dst : String
  block_number : Nat
  timestamp : String
deriving DecidableEq, Repr

/-! ## Classifier (`process_transfer_events`, lines 206-244) -/

/-- The loop body of `process_transfer_events` for one event: the
`if`/`elif` chain of lines 222-233 followed by the record construction of
lines 235-242; `none` is the `continue` of line 233.  Address sets are
modelled as lists with membership tests. -/
def classify_one (dex_addresses user_addresses : List String) (decimals : Nat)
    (event : TransferEvent) : Option LabeledTrade :=
  let from_address := event.src
  let to_address := event.dst
  let amount : ℚ := (event.amount : ℚ) / (10 ^ decimals : ℚ)
  let from_is_dex := from_address ∈ dex_addresses
  let to_is_dex := to_address ∈ dex_addresses
  let from_is_user := from_address ∈ user_addresses
  let to_is_user := to_address ∈ user_addresses
  if from_is_dex ∧ to_is_user then
    some ⟨"Buy", amount, from_address, to_address, event.block_number, event.timestamp⟩
  else if from_is_user ∧ to_is_dex then
    some ⟨"Sell", amount, from_address, to_address, event.block_number, event.timestamp⟩
  else if from_is_user ∧ to_is_user then
    some ⟨"Transfer within", amount, from_address, to_address, event.block_number, event.timestamp⟩
  else if to_is_user then
    some ⟨"Input unknown", amount, from_address, to_address, event.block_number, event.timestamp⟩
  else if from_is_user then
    some ⟨"Output unknown", amount, from_address, to_address, event.block_number, event.timestamp⟩
  else
    none

/-- `process_transfer_events` (lines 206-244): fold of `classify_one` over
the input in order, keeping labelled results. -/
def process_transfer_events (events : List TransferEvent)
    (dex_addresses user_addresses : List String) (decimals : Nat) : List LabeledTrade :=
  events.filterMap (classify_one dex_addresses user_addresses decimals)

/-! ## Cost-basis fold (`process_trade_history`, lines 170-199) -/

/-- One CSV row of a trade-history file as read back by
`process_trade_history`: the label, the (already unit-converted) amount,
and the timestamp string `YYYY-MM-DD HH:MM:SS`. -/
structure TradeRow where
  label : String
  amount : ℚ
  timestamp : String
deriving DecidableEq, Repr

/-- `timestamp.strftime('%Y-%m-%d')` after parsing `'%Y-%m-%d %H:%M:%S'`:
the date part of the timestamp string (everything before the space). -/
def date_key (timestamp : String) : String :=
  ⟨timestamp.data.takeWhile (fun c => c ≠ ' ')⟩

/-- Running totals of `process_trade_history` plus its observable warnings. -/
structure TradeTotals where
  total_cost : ℚ
  total_revenue : ℚ
  remaining_tokens : ℚ
  skipped_dates : List String
deriving DecidableEq, Repr

/-- The loop body of `process_trade_history` (lines 178-194): missing price
⇒ warn and skip; `Buy` ⇒ cost and tokens grow; `Sell` ⇒ revenue grows and
tokens shrink; any other label leaves the totals unchanged. -/
def trade_step (prices : List (String × ℚ)) (acc : TradeTotals) (row : TradeRow) : TradeTotals :=
  let dk := date_key row.timestamp
  match prices.lookup dk with
  | none => { acc with skipped_dates := acc.skipped_dates ++ [dk] }
  | some price =>
    if row.label = "Buy" then
      { acc with total_cost := acc.total_cost + row.amount * price,
                 remaining_tokens := acc.remaining_tokens + row.amount }
    else if row.label = "Sell" then
      { acc with total_revenue := acc.total_revenue + row.amount * price,
                 remaining_tokens := acc.remaining_tokens - row.amount }
    else acc

/-- `process_trade_history` (lines 170-199): fold the rows in input order
starting from zero totals. -/
def process_trade_history (rows : List TradeRow) (prices : List (String × ℚ)) :
    TradeTotals :=
  rows.foldl (trade_step prices) ⟨0, 0, 0, []⟩

/-- The condition under which lines 196-197 print the
negative-remaining-tokens warning: strictly negative remaining tokens. -/
def negative_tokens_warning (totals : TradeTotals) : Prop :=
  totals.remaining_tokens < 0

/-- Lines 227-233 of `calculate_loss_free_price`: the remaining amount to
recover and the loss-free price, with the division guarded by
`remaining_tokens > 0`. -/
def loss_free_price_of (total_cost total_revenue remaining_tokens : ℚ) : ℚ × ℚ :=
  let remaining_amount := total_cost - total_revenue
  let loss_free_price := if remaining_tokens > 0 then remaining_amount / remaining_tokens else 0
  (remaining_amount, loss_free_price)

/-! ## Chain scanner (`get_all_transfer_events`, lines 38-119)

The RPC provider is an oracle: `block_number` is `w3.eth.block_number` and
`getLogs a b` is the `w3.eth.get_logs` call for the block range `[a, b]`,
returning the already-decoded transfer events of that range or an error
(the `except` of line 107).  The per-log decoding of lines 83-100 (topics
to checksummed addresses, hex data to amount, block timestamp lookup) is
folded into the oracle's output. -/
structure Chain where
  block_number : Nat
  getLogs : Nat → Nat → Except Unit (List TransferEvent)

/-- An exception escaping the scanner: the `ZeroDivisionError` of line 55
(nothing inside the loop catches it), or exhaustion of the fuel that makes
the `while True` loop a total function. -/
inductive ScanError where
  | zeroDivision
  | outOfFuel
deriving DecidableEq, Repr

/-- The `while True` loop of `get_all_transfer_events` (lines 53-117).
Each iteration recomputes `end_block` (line 54), evaluates the progress
expression of line 55 — which raises `ZeroDivisionError` when
`latest_block = from_block` — then queries the provider.  On success the
decoded events are appended and the loop either breaks (line 102) or
advances (line 105); on a query error, if `batch_size > 1000` it is halved
and the same start block is retried (lines 110-113), otherwise the
sub-range is skipped and `batch_size` reset to 20000 (lines 114-117). -/
def scan_loop (w3 : Chain) (from_block : Nat) :
    Nat → Nat → Nat → List TransferEvent → Except ScanError (List TransferEvent)
  | 0, _, _, _ => .error .outOfFuel
  | fuel + 1, current_block, batch_size, events =>
    let latest_block := w3.block_number
    let end_block := min (current_block + batch_size) latest_block
    if latest_block = from_block then .error .zeroDivision
    else
      match w3.getLogs current_block end_block with
      | .ok logs =>
        let events := events ++ logs
        if latest_block ≤ end_block then .ok events
        else scan_loop w3 from_block fuel (end_block + 1) batch_size events
      | .error _ =>
        if batch_size > 1000 then
          scan_loop w3 from_block fuel current_block (batch_size / 2) events
        else
          scan_loop w3 from_block fuel (end_block + 1) 20000 events

/-- `get_all_transfer_events` (lines 38-119): run the loop from
`from_block` with the initial `batch_size = 500` of line 42. -/
def get_all_transfer_events (w3 : Chain) (from_block : Nat) (fuel : Nat) :
    Except ScanError (List TransferEvent) :=
  scan_loop w3 from_block fuel from_block 500 []

/-! ## Persisted state (event files, checkpoint record, price cache) -/

/-- A persisted JSON file as the loaders see it: absent
(`FileNotFoundError`), unparseable (`json.JSONDecodeError`), or parsed
content. -/
inductive JsonFile (α : Type) where
  | missing
  | malformed
  | valid (a : α)
deriving DecidableEq, Repr

/-- The on-disk state `token-trade-history.py` reads and writes: the saved
transfer-event CSV files (tagged by the `latest_block` in their filename,
line 123) and `event_log_record.json`'s entry for the token/chain key
(`none` models a parsed file without the key, giving the `KeyError` of
line 139). -/
structure World where
  eventFiles : List (Nat × List TransferEvent)
  record : JsonFile (Option Nat)
deriving Repr

/-- One observable write, used to state in which order the scanner commits
its files. -/
inductive WriteOp where
  | saveEvents (tag : Nat) (rows : List TransferEvent)
  | commitRecord (blk : Nat)
  | saveTradeHistory (rows : List LabeledTrade)
deriving DecidableEq, Repr

/-- `get_latest_recorded_block` (lines 130-141): a missing file, an
unparseable file, or a missing key are all caught (line 139) and yield 0. -/
def get_latest_recorded_block (record : JsonFile (Option Nat)) : Nat :=
  match record with
  | .valid (some latest_block) => latest_block
  | _ => 0

/-- The filename suffix `save_transfer_events` builds at line 123; files
sharing a token/chain prefix differ only here. -/
def event_filename (tag : Nat) : String :=
  "block_" ++ Nat.repr tag ++ ".csv"

/-- `max(files)` at line 171: Python's `max` over the filename strings,
keeping the earlier element on ties. -/
def pick_latest_file (first : Nat × List TransferEvent)
    (rest : List (Nat × List TransferEvent)) : Nat × List TransferEvent :=
  rest.foldl (fun acc f => if event_filename acc.1 < event_filename f.1 then f else acc) first

/-- `load_transfer_events` (lines 164-204).  With no saved file it returns
`[]` at once (line 169).  Otherwise it loads the most recent file, reads
the checkpoint, and if new blocks exist, scans from `checkpoint + 1`
(line 195), extends the loaded events with the new ones (line 196), saves
the combined file (line 199) and only then commits the checkpoint
(line 201).  A `ZeroDivisionError` escaping the scan aborts the whole call
before any write. -/
def load_transfer_events (w3 : Chain) (w : World) (fuel : Nat) :
    Except ScanError (List TransferEvent × World × List WriteOp) :=
  match w.eventFiles with
  | [] => .ok ([], w, [])
  | f :: rest =>
    let latest_file := pick_latest_file f rest
    let events := latest_file.2
    let latest_recorded_block := get_latest_recorded_block w.record
    let current_latest_block := w3.block_number
    if latest_recorded_block < current_latest_block then
      match get_all_transfer_events w3 (latest_recorded_block + 1) fuel with
      | .error e => .error e
      | .ok new_events =>
        let events := events ++ new_events
        let w' : World := { eventFiles := (current_latest_block, events) :: w.eventFiles,
                            record := .valid (some current_latest_block) }
        .ok (events, w', [.saveEvents current_latest_block events,
                          .commitRecord current_latest_block])
    else .ok (events, w, [])

/-- `main` (lines 258-312) after configuration: load (and possibly extend)
the stored events; if none were found, fetch from `from_block` and save
them — without touching `event_log_record.json` (lines 302-305) — then
classify and save the trade history. -/
def main_run (w3 : Chain) (dex_addresses user_addresses : List String)
    (decimals : Nat) (from_block : Nat) (w : World) (fuel : Nat) :
    Except ScanError (List LabeledTrade × World × List WriteOp) :=
  match load_transfer_events w3 w fuel with
  | .error e => .error e
  | .ok (events, w1, trace) =>
    if events.isEmpty then
      match get_all_transfer_events w3 from_block fuel with
      | .error e => .error e
      | .ok fetched =>
        let w2 : World := { w1 with eventFiles := (w3.block_number, fetched) :: w1.eventFiles }
        let processed := process_transfer_events fetched dex_addresses user_addresses decimals
        .ok (processed, w2,
             trace ++ [.saveEvents w3.block_number fetched, .saveTradeHistory processed])
    else
      let processed := process_transfer_events events dex_addresses user_addresses decimals
      .ok (processed, w1, trace ++ [.saveTradeHistory processed])

/-- The externally observable outcome of a `load_transfer_events` call:
the events it returns and the writes it performs (dropping the carried
in-memory world). -/
def run_output (r : Except ScanError (List TransferEvent × World × List WriteOp)) :
    Except ScanError (List TransferEvent × List WriteOp) :=
  r.map (fun x => (x.1, x.2.2))

/-- A capacity-limited provider for exercising the scanner's error path:
a 600-block chain whose only Transfer sits at block 100, with a provider
that rejects any `get_logs` query spanning more than 250 blocks (the
"provider limit exceeded" failure of line 107). -/
def capacity_limited_chain : Chain where
  block_number := 600
  getLogs a b :=
    if 250 < b - a then .error ()
    else .ok (if a ≤ 100 ∧ 100 ≤ b then [⟨"A", "B", 1, 100, "t"⟩] else [])

/-! ## Event store append (`load_transfer_events` line 196) -/

/-- The dedup key named by the spec for stored transfer events:
(block number, from, to, amount). -/
def dedup_key (e : TransferEvent) : Nat × String × String × Nat :=
  (e.block_number, e.src, e.dst, e.amount)

/-- How `load_transfer_events` merges newly scanned events into the loaded
store: `events.extend(new_events)` at line 196 — plain concatenation. -/
def append_events (stored new_events : List TransferEvent) : List TransferEvent :=
  stored ++ new_events

/-! ## Price cache (`calculate_loss_free_price.py`) -/

/-- `MAX_RETRIES` (line 22). -/
def MAX_RETRIES : Nat := 6

/-- `RETRY_DELAY` in seconds (line 23). -/
def RETRY_DELAY : Nat := 15

/-- `load_cached_prices` (lines 70-81): a missing cache file
(`os.path.exists` false) or any load/parse error (caught at line 79)
yields the empty mapping; the run continues.  Dates are modelled as
naturals. -/
def load_cached_prices (cache_file : JsonFile (List (Nat × ℚ))) : List (Nat × ℚ) :=
  match cache_file with
  | .valid data => data
  | _ => []

/-- One attempt's outcome for the CoinGecko history request of
lines 130-136: a 200 with a usd price, a 200 without `market_data`
(line 141), a 429, any other status (line 152), or an exception raised by
the request (line 155). -/
inductive PriceResp where
  | ok (price : ℚ)
  | noData
  | rateLimited
  | otherStatus
  | exn
deriving DecidableEq, Repr

/-- The retry loop of lines 120-162 for one date.  `resp k` is the outcome
of the (k+1)-th request for this date.  Returns the recorded price (if
any), the number of requests issued, and the number of `RETRY_DELAY`
sleeps performed.  A 429 or a raised exception increments `retry_count`
and retries after sleeping while `retry_count < MAX_RETRIES`; a 200 (with
or without data) and any other status break out at once.  The loop
variable `retry_count` (which increases towards `MAX_RETRIES`) is
represented by the structurally decreasing
`gas = MAX_RETRIES - retry_count`, so the loop guard
`retry_count < MAX_RETRIES` is the `gas = 0` case and the inner test
`retry_count + 1 < MAX_RETRIES` of lines 145 and 157 is `0 < gas` after
peeling one unit. -/
def fetch_retry_go (resp : Nat → PriceResp) : Nat → Nat → Nat → Option ℚ × Nat × Nat
  | 0, attempts, sleeps => (none, attempts, sleeps)
  | gas + 1, attempts, sleeps =>
    match resp attempts with
    | .ok price => (some price, attempts + 1, sleeps)
    | .noData => (none, attempts + 1, sleeps)
    | .rateLimited =>
      if 0 < gas then fetch_retry_go resp gas (attempts + 1) (sleeps + 1)
      else (none, attempts + 1, sleeps)
    | .otherStatus => (none, attempts + 1, sleeps)
    | .exn =>
      if 0 < gas then fetch_retry_go resp gas (attempts + 1) (sleeps + 1)
      else (none, attempts + 1, sleeps)

/-- The retry loop entered with `retry_count = 0` (line 118), i.e.
`gas = MAX_RETRIES`. -/
def fetch_price_with_retry (resp : Nat → PriceResp) : Option ℚ × Nat × Nat :=
  fetch_retry_go resp MAX_RETRIES 0 0

/-- Python dict assignment `prices[key] = price` on an association list. -/
def dict_insert (prices : List (Nat × ℚ)) (k : Nat) (v : ℚ) : List (Nat × ℚ) :=
  if (prices.lookup k).isSome then
    prices.map (fun p => if p.1 = k then (k, v) else p)
  else prices ++ [(k, v)]

/-- The date iteration of lines 99-106: every day from `start_date` to
`end_date` inclusive. -/
def dates_in_range (start_date end_date : Nat) : List Nat :=
  (List.range (end_date + 1 - start_date)).map (fun i => start_date + i)

/-- Result of a fill pass: the returned mapping, whether
`save_cached_prices` ran (line 167), and the dates the pass requested. -/
structure FillResult where
  prices : List (Nat × ℚ)
  saved : Bool
  fetched_dates : List Nat
deriving DecidableEq, Repr

/-- The body of the date loop (lines 116-164) for one missing date: run
the retry loop and record the price on success (`prices[...] = price`,
line 137); a date whose retries are exhausted or whose response carries no
data is left unrecorded. -/
def fill_date (resp : Nat → Nat → PriceResp) (acc : List (Nat × ℚ)) (d : Nat) :
    List (Nat × ℚ) :=
  match (fetch_price_with_retry (resp d)).1 with
  | some price => dict_insert acc d price
  | none => acc

/-- `get_historical_prices` (lines 93-168).  `resp d k` is the outcome of
the (k+1)-th request for date `d`.  Dates already in the loaded cache are
never requested (lines 102-106); with nothing to fetch the cache is
returned without re-saving (lines 108-110); otherwise each missing date
runs the retry loop, successful fetches are recorded, and the merged
mapping is saved whether or not every date was filled (line 167). -/
def get_historical_prices (resp : Nat → Nat → PriceResp)
    (cache_file : JsonFile (List (Nat × ℚ))) (start_date end_date : Nat) : FillResult :=
  let prices := load_cached_prices cache_file
  let dates_to_fetch :=
    (dates_in_range start_date end_date).filter (fun d => (prices.lookup d).isNone)
  if dates_to_fetch.isEmpty then
    ⟨prices, false, []⟩
  else
    ⟨dates_to_fetch.foldl (fill_date resp) prices, true, dates_to_fetch⟩

/-! # Theorems -/

/-- C3: the cost-basis fold processes trades in input order; a trade whose
date has no price is skipped with a warning; a `Buy` adds `amount*price`
to the cost and `amount` to the remaining tokens; a `Sell` adds
`amount*price` to the revenue and subtracts `amount` from the remaining
tokens; any other label leaves the totals unchanged;
`remainingAmount = totalCost - totalRevenue`; and on the trades
[Buy 100 at price 1, Sell 40 at price 2] the result is totalCost = 100,
totalRevenue = 80, remainingAmount = 20, remainingTokens = 60,
lossFreePrice = 1/3. -/
theorem claim_C3_cost_basis_fold :
    (∀ (prices : List (String × ℚ)) (acc : TradeTotals) (row : TradeRow),
      (prices.lookup (date_key row.timestamp) = none →
        trade_step prices acc row =
          { acc with skipped_dates := acc.skipped_dates ++ [date_key row.timestamp] }) ∧
      (∀ price, prices.lookup (date_key row.timestamp) = some price →
        (row.label = "Buy" →
          trade_step prices acc row =
            { acc with total_cost := acc.total_cost + row.amount * price,
                       remaining_tokens := acc.remaining_tokens + row.amount }) ∧
        (row.label = "Sell" →
          trade_step prices acc row =
            { acc with total_revenue := acc.total_revenue + row.amount * price,
                       remaining_tokens := acc.remaining_tokens - row.amount }) ∧
        (row.label ≠ "Buy" → row.label ≠ "Sell" → trade_step prices acc row = acc))) ∧
    (∀ rows prices,
      process_trade_history rows prices = rows.foldl (trade_step prices) ⟨0, 0, 0, []⟩) ∧
    (∀ total_cost total_revenue remaining_tokens : ℚ,
      (loss_free_price_of total_cost total_revenue remaining_tokens).1 =
        total_cost - total_revenue) ∧
    (process_trade_history
        [⟨"Buy", 100, "2024-01-01 10:00:00"⟩, ⟨"Sell", 40, "2024-01-02 10:00:00"⟩]
        [("2024-01-01", 1), ("2024-01-02", 2)] = ⟨100, 80, 60, []⟩ ∧
      loss_free_price_of 100 80 60 = (20, 1/3)) := by
  refine ⟨?_, fun _ _ => rfl, fun _ _ _ => rfl, ?_, ?_⟩
  · intro prices acc row
    constructor
    · intro hnone
      simp [trade_step, hnone]
    · intro price hsome
      refine ⟨?_, ?_, ?_⟩
      · intro hbuy
        simp [trade_step, hsome, hbuy]
      · intro hsell
        simp [trade_step, hsome, hsell]
      · intro hnb hns
        simp [trade_step, hsome, hnb, hns]
  · simp [process_trade_history, trade_step, date_key, List.lookup]
    norm_num
  · simp [loss_free_price_of]
    norm_num

/-- Witness for C3: one `Buy` trade at a known price, evaluated through the
theorem. -/
theorem claim_C3_cost_basis_fold_witness :
    trade_step [("2024-01-01", 1)] ⟨0, 0, 0, []⟩ ⟨"Buy", 100, "2024-01-01 10:00:00"⟩ =
      ⟨100, 0, 100, []⟩ := by
  have h := ((claim_C3_cost_basis_fold.1 [("2024-01-01", 1)] ⟨0, 0, 0, []⟩
    ⟨"Buy", 100, "2024-01-01 10:00:00"⟩).2 1 (by decide)).1 rfl
  rw [h]
  norm_num

/-- C4: with disjoint exchange and user address sets, the classifier is the
order-preserving pure per-event map `classify_one`, and per event it
follows the rule table: exchange→user is Buy, user→exchange is Sell,
user→user is Transfer within, (neither set)→user is Input unknown,
user→(neither set) is Output unknown, and an event touching no user
address is dropped; labelled amounts are `amount / 10^decimals`. -/
theorem claim_C4_classifier (events : List TransferEvent)
    (dex_addresses user_addresses : List String) (decimals : Nat)
    (hdisj : ∀ a, a ∈ dex_addresses → a ∉ user_addresses) :
    process_transfer_events events dex_addresses user_addresses decimals =
      events.filterMap (classify_one dex_addresses user_addresses decimals) ∧
    ∀ e : TransferEvent,
      (e.src ∈ dex_addresses → e.dst ∈ user_addresses →
        classify_one dex_addresses user_addresses decimals e =
          some ⟨"Buy", (e.amount : ℚ) / (10 ^ decimals : ℚ),
                e.src, e.dst, e.block_number, e.timestamp⟩) ∧
      (e.src ∈ user_addresses → e.dst ∈ dex_addresses →
        classify_one dex_addresses user_addresses decimals e =
          some ⟨"Sell", (e.amount : ℚ) / (10 ^ decimals : ℚ),
                e.src, e.dst, e.block_number, e.timestamp⟩) ∧
      (e.src ∈ user_addresses → e.dst ∈ user_addresses →
        classify_one dex_addresses user_addresses decimals e =
          some ⟨"Transfer within", (e.amount : ℚ) / (10 ^ decimals : ℚ),
                e.src, e.dst, e.block_number, e.timestamp⟩) ∧
      (e.src ∉ dex_addresses → e.src ∉ user_addresses → e.dst ∈ user_addresses →
        classify_one dex_addresses user_addresses decimals e =
          some ⟨"Input unknown", (e.amount : ℚ) / (10 ^ decimals : ℚ),
                e.src, e.dst, e.block_number, e.timestamp⟩) ∧
      (e.src ∈ user_addresses → e.dst ∉ dex_addresses → e.dst ∉ user_addresses →
        classify_one dex_addresses user_addresses decimals e =
          some ⟨"Output unknown", (e.amount : ℚ) / (10 ^ decimals : ℚ),
                e.src, e.dst, e.block_number, e.timestamp⟩) ∧
      (e.src ∉ user_addresses → e.dst ∉ user_addresses →
        classify_one dex_addresses user_addresses decimals e = none) := by
  refine ⟨rfl, fun e => ⟨?_, ?_, ?_, ?_, ?_, ?_⟩⟩
  · intro hfd htu
    simp [classify_one, hfd, htu]
  · intro hfu htd
    have hfd : e.src ∉ dex_addresses := fun h => hdisj e.src h hfu
    have htu : e.dst ∉ user_addresses := fun h => hdisj e.dst htd h
    simp [classify_one, hfu, htd, hfd, htu]
  · intro hfu htu
    have hfd : e.src ∉ dex_addresses := fun h => hdisj e.src h hfu
    have htd : e.dst ∉ dex_addresses := fun h => hdisj e.dst h htu
    simp [classify_one, hfu, htu, hfd, htd]
  · intro hfd hfu htu
    simp [classify_one, hfd, hfu, htu]
  · intro hfu htd htu
    simp [classify_one, hfu, htd, htu]
  · intro hfu htu
    simp [classify_one, hfu, htu]

/-- Witness for C4: a Buy, a Sell and a dropped event through the
classifier with concrete disjoint address sets. -/
theorem claim_C4_classifier_witness :
    process_transfer_events
      [⟨"D", "U", 5, 1, "t1"⟩, ⟨"U", "D", 7, 2, "t2"⟩, ⟨"X", "Y", 9, 3, "t3"⟩]
      ["D"] ["U"] 0 =
      [⟨"Buy", 5, "D", "U", 1, "t1"⟩, ⟨"Sell", 7, "U", "D", 2, "t2"⟩] := by
  have h := claim_C4_classifier
    [⟨"D", "U", 5, 1, "t1"⟩, ⟨"U", "D", 7, 2, "t2"⟩, ⟨"X", "Y", 9, 3, "t3"⟩]
    ["D"] ["U"] 0 (by decide)
  have hbuy := (h.2 ⟨"D", "U", 5, 1, "t1"⟩).1 (by decide) (by decide)
  have hsell := (h.2 ⟨"U", "D", 7, 2, "t2"⟩).2.1 (by decide) (by decide)
  have hdrop := (h.2 ⟨"X", "Y", 9, 3, "t3"⟩).2.2.2.2.2 (by decide) (by decide)
  rw [h.1]
  simp [List.filterMap, hbuy, hsell, hdrop]

/-- C5 counterexample: a history that buys and sells the same quantity
leaves `remaining_tokens = 0 ≤ 0`, the loss-free price is 0, but no
negative-remaining-tokens warning is recorded — the code warns only on
strictly negative remainders, not at 0 as the claim states. -/
theorem claim_C5_counterexample :
    process_trade_history
        [⟨"Buy", 100, "2024-01-01 10:00:00"⟩, ⟨"Sell", 100, "2024-01-01 11:00:00"⟩]
        [("2024-01-01", 1)] = ⟨100, 100, 0, []⟩ ∧
    ¬ negative_tokens_warning ⟨100, 100, 0, []⟩ ∧
    (loss_free_price_of 100 100 0).2 = 0 := by
  refine ⟨?_, ?_, ?_⟩
  · simp [process_trade_history, trade_step, date_key, List.lookup]
  · simp [negative_tokens_warning]
  · simp [loss_free_price_of]

/-- C5 amended: if `remainingTokens ≤ 0` then `lossFreePrice = 0` (the
division is performed only when `remainingTokens > 0`), otherwise
`lossFreePrice = remainingAmount / remainingTokens`; the warning is
recorded exactly when `remainingTokens` is strictly negative (none is
recorded at exactly 0). -/
theorem claim_C5_guarded_division
    (total_cost total_revenue remaining_tokens : ℚ) :
    (remaining_tokens ≤ 0 →
      (loss_free_price_of total_cost total_revenue remaining_tokens).2 = 0) ∧
    (0 < remaining_tokens →
      (loss_free_price_of total_cost total_revenue remaining_tokens).2 =
        (total_cost - total_revenue) / remaining_tokens) ∧
    (∀ totals : TradeTotals,
      negative_tokens_warning totals ↔ totals.remaining_tokens < 0) := by
  refine ⟨?_, ?_, fun _ => Iff.rfl⟩
  · intro hle
    simp [loss_free_price_of, not_lt.mpr hle]
  · intro hpos
    simp [loss_free_price_of, hpos]

/-- Witness for C5 amended: overall-negative and overall-positive
remainders at concrete values. -/
theorem claim_C5_guarded_division_witness :
    (loss_free_price_of 100 120 (-5)).2 = 0 ∧
    (loss_free_price_of 100 80 60).2 = (100 - 80) / 60 := by
  exact ⟨(claim_C5_guarded_division 100 120 (-5)).1 (by norm_num),
         (claim_C5_guarded_division 100 80 60).2.1 (by norm_num)⟩

/-- C2 counterexample: the event-store merge is `events.extend`, plain
concatenation — re-appending an event already in the store duplicates its
dedup key and changes the store, so the merge is neither dedup-ing nor
idempotent. -/
theorem claim_C2_counterexample :
    append_events [⟨"A", "B", 1, 5, "t"⟩] [⟨"A", "B", 1, 5, "t"⟩] =
      [⟨"A", "B", 1, 5, "t"⟩, ⟨"A", "B", 1, 5, "t"⟩] ∧
    append_events [⟨"A", "B", 1, 5, "t"⟩] [⟨"A", "B", 1, 5, "t"⟩] ≠
      [⟨"A", "B", 1, 5, "t"⟩] ∧
    ¬ ((append_events [⟨"A", "B", 1, 5, "t"⟩]
        [⟨"A", "B", 1, 5, "t"⟩]).map dedup_key).Nodup := by
  exact ⟨rfl, by decide, by decide⟩

/-- C2 amended: the Event Store append is plain concatenation
(`events.extend(new_events)`), with no dedup pass; the resulting store has
no two entries sharing the dedup key (block number, from, to, amount)
provided the stored events and the newly appended batch each have unique
dedup keys and cover disjoint block ranges — the discipline the
incremental scan maintains by resuming from checkpoint + 1.  Re-appending
an overlapping range duplicates entries rather than leaving the store
unchanged. -/
theorem claim_C2_append_disjoint_nodup (stored new_events : List TransferEvent)
    (h1 : (stored.map dedup_key).Nodup) (h2 : (new_events.map dedup_key).Nodup)
    (hdisj : ∀ e ∈ stored, ∀ e' ∈ new_events, e.block_number ≠ e'.block_number) :
    ((append_events stored new_events).map dedup_key).Nodup := by
  rw [append_events, List.map_append]
  refine List.Nodup.append h1 h2 ?_
  intro k hk hk'
  obtain ⟨e, he, rfl⟩ := List.mem_map.mp hk
  obtain ⟨e', he', hkey⟩ := List.mem_map.mp hk'
  have hblk : e'.block_number = e.block_number := congrArg (fun p => p.1) hkey
  exact hdisj e he e' he' hblk.symm

/-- Witness for C2 amended: two disjoint-block singleton batches. -/
theorem claim_C2_append_disjoint_nodup_witness :
    ((append_events [⟨"A", "B", 1, 5, "t"⟩] [⟨"B", "C", 2, 9, "u"⟩]).map dedup_key).Nodup := by
  exact claim_C2_append_disjoint_nodup [⟨"A", "B", 1, 5, "t"⟩] [⟨"B", "C", 2, 9, "u"⟩]
    (by decide) (by decide) (by decide)

/-- `List.lookup` on a cons cell, phrased with a propositional `if`. -/
theorem lookup_pair_cons (p : Nat × ℚ) (rest : List (Nat × ℚ)) (d : Nat) :
    (p :: rest).lookup d = if d = p.1 then some p.2 else rest.lookup d := by
  by_cases h : d = p.1
  · have hb : (d == p.1) = true := by simp [h]
    simp [List.lookup, hb, h]
  · have hb : (d == p.1) = false := by simp [h]
    simp [List.lookup, hb, h]

/-- Replacing every pair keyed `k ≠ d` leaves lookups of `d` unchanged. -/
theorem lookup_map_replace_ne (m : List (Nat × ℚ)) (k : Nat) (v : ℚ) (d : Nat)
    (hne : k ≠ d) :
    (m.map (fun p => if p.1 = k then (k, v) else p)).lookup d = m.lookup d := by
  induction m with
  | nil => rfl
  | cons p rest ih =>
    by_cases hp : p.1 = k
    · rw [List.map_cons, if_pos hp, lookup_pair_cons, lookup_pair_cons]
      rw [if_neg (by simpa using Ne.symm hne), if_neg (by rw [hp]; exact Ne.symm hne), ih]
    · rw [List.map_cons, if_neg hp, lookup_pair_cons, lookup_pair_cons]
      by_cases hd : d = p.1
      · simp [hd]
      · simp [hd, ih]

/-- Appending a single pair keyed `k ≠ d` leaves lookups of `d`
unchanged. -/
theorem lookup_append_single_ne (m : List (Nat × ℚ)) (k : Nat) (v : ℚ) (d : Nat)
    (hne : k ≠ d) :
    (m ++ [(k, v)]).lookup d = m.lookup d := by
  induction m with
  | nil =>
    rw [List.nil_append, lookup_pair_cons, if_neg (Ne.symm hne)]
  | cons p rest ih =>
    rw [List.cons_append, lookup_pair_cons, lookup_pair_cons]
    by_cases hd : d = p.1
    · simp [hd]
    · simp [hd, ih]

/-- `dict_insert` at a key other than `d` leaves lookups of `d`
unchanged. -/
theorem dict_insert_lookup_ne (m : List (Nat × ℚ)) (k : Nat) (v : ℚ) (d : Nat)
    (hne : k ≠ d) :
    (dict_insert m k v).lookup d = m.lookup d := by
  unfold dict_insert
  split
  · exact lookup_map_replace_ne m k v d hne
  · exact lookup_append_single_ne m k v d hne

/-- The fill fold never touches a key outside the fetched dates. -/
theorem fill_fold_lookup_ne (resp : Nat → Nat → PriceResp) (ds : List Nat) :
    ∀ (m : List (Nat × ℚ)) (d : Nat), (∀ dd ∈ ds, dd ≠ d) →
      (ds.foldl (fill_date resp) m).lookup d = m.lookup d := by
  induction ds with
  | nil => intro m d _; rfl
  | cons dd rest ih =>
    intro m d hne
    simp only [List.foldl_cons]
    have hstep : (fill_date resp m dd).lookup d = m.lookup d := by
      unfold fill_date
      cases hf : (fetch_price_with_retry (resp dd)).1 with
      | none => rfl
      | some price => exact dict_insert_lookup_ne m dd price d (hne dd (List.mem_cons_self dd rest))
    rw [ih (fill_date resp m dd) d (fun x hx => hne x (List.mem_cons_of_mem dd hx)), hstep]

/-- C6: a price-cache fill requests exactly the dates of the range that
are absent from the loaded cache; every previously known date keeps its
cached price in the returned mapping (the set of known dates only grows);
when there was anything to fetch, the merged mapping is persisted even if
some dates could not be filled; and when nothing is persisted the mapping
is exactly the loaded cache. -/
theorem claim_C6_price_cache_fill (resp : Nat → Nat → PriceResp)
    (cache_file : JsonFile (List (Nat × ℚ))) (start_date end_date : Nat) :
    (get_historical_prices resp cache_file start_date end_date).fetched_dates =
      (dates_in_range start_date end_date).filter
        (fun d => ((load_cached_prices cache_file).lookup d).isNone) ∧
    (∀ d price, (load_cached_prices cache_file).lookup d = some price →
      (get_historical_prices resp cache_file start_date end_date).prices.lookup d =
        some price) ∧
    ((get_historical_prices resp cache_file start_date end_date).fetched_dates ≠ [] →
      (get_historical_prices resp cache_file start_date end_date).saved = true) ∧
    ((get_historical_prices resp cache_file start_date end_date).saved = false →
      (get_historical_prices resp cache_file start_date end_date).prices =
        load_cached_prices cache_file) := by
  by_cases hnil : (dates_in_range start_date end_date).filter
      (fun d => ((load_cached_prices cache_file).lookup d).isNone) = []
  · simp only [get_historical_prices, hnil, List.isEmpty_nil, if_true]
    exact ⟨by trivial, fun d price hd => hd, fun h => absurd rfl h, fun _ => by trivial⟩
  · have hemp : ((dates_in_range start_date end_date).filter
        (fun d => ((load_cached_prices cache_file).lookup d).isNone)).isEmpty = false := by
      simpa [List.isEmpty_iff] using hnil
    simp only [get_historical_prices, hemp, Bool.false_eq_true, if_false]
    refine ⟨by trivial, ?_, fun _ => by trivial, ?_⟩
    · intro d price hd
      rw [fill_fold_lookup_ne]
      · exact hd
      · intro dd hdd
        have hnone := (List.mem_filter.mp hdd).2
        intro hcontra
        rw [hcontra, hd] at hnone
        simp at hnone
    · intro hfalse
      exact absurd hfalse (by simp)

/-- Witness for C6: one cached date and one missing date that the fill
pass fetches; the cached price survives and the fill is persisted. -/
theorem claim_C6_price_cache_fill_witness :
    (get_historical_prices (fun _ _ => .ok 7) (.valid [(0, 5)]) 0 1).prices.lookup 0 =
      some 5 ∧
    (get_historical_prices (fun _ _ => .ok 7) (.valid [(0, 5)]) 0 1).saved = true := by
  have h := claim_C6_price_cache_fill (fun _ _ => .ok 7) (.valid [(0, 5)]) 0 1
  exact ⟨h.2.1 0 5 (by decide), h.2.2.1 (by decide)⟩

/-- The retry loop issues at most `attempts + gas` requests in total. -/
theorem fetch_retry_go_attempts_le (resp : Nat → PriceResp) :
    ∀ (gas attempts sleeps : Nat),
      (fetch_retry_go resp gas attempts sleeps).2.1 ≤ attempts + gas := by
  intro gas
  induction gas with
  | zero => intro a s; simp [fetch_retry_go]
  | succ g ih =>
    intro a s
    rcases hr : resp a with p | _ | _ | _ | _
    · simp [fetch_retry_go, hr]
    · simp [fetch_retry_go, hr]
    · by_cases hg : 0 < g
      · simp only [fetch_retry_go, hr, if_pos hg]
        have := ih (a + 1) (s + 1)
        omega
      · simp [fetch_retry_go, hr, hg]
    · simp [fetch_retry_go, hr]
    · by_cases hg : 0 < g
      · simp only [fetch_retry_go, hr, if_pos hg]
        have := ih (a + 1) (s + 1)
        omega
      · simp [fetch_retry_go, hr, hg]

/-- C7 counterexample: the claim says any non-rate-limit request failure
skips the date with no retry, but a raised request exception is retried
exactly like a 429 — here the first attempt raises, the second succeeds,
so two requests are issued with one sleep and the price is recorded
instead of the date being skipped. -/
theorem claim_C7_counterexample :
    fetch_price_with_retry (fun k => if k = 0 then .exn else .ok 5) = (some 5, 2, 1) ∧
    fetch_price_with_retry (fun k => if k = 0 then .exn else .ok 5) ≠ (none, 1, 0) := by
  exact ⟨rfl, by decide⟩

/-- C7 amended: the retry ceiling is 6 attempts with a fixed 15-second
inter-retry delay; a date answering only 429s is skipped after exactly 6
attempts and 5 sleeps without failing the fill; a non-200/non-429 HTTP
response, or a 200 without price data, skips the date with no retry; a
raised request exception is retried like a 429; three 429s followed by a
200 yield the correct price within the ceiling; and no date ever receives
more than `MAX_RETRIES` requests. -/
theorem claim_C7_retry_policy (resp : Nat → PriceResp) :
    MAX_RETRIES = 6 ∧ RETRY_DELAY = 15 ∧
    ((∀ k, k < 6 → resp k = .rateLimited) →
      fetch_price_with_retry resp = (none, 6, 5)) ∧
    (resp 0 = .otherStatus → fetch_price_with_retry resp = (none, 1, 0)) ∧
    (resp 0 = .noData → fetch_price_with_retry resp = (none, 1, 0)) ∧
    (∀ price, resp 0 = .rateLimited → resp 1 = .rateLimited →
      resp 2 = .rateLimited → resp 3 = .ok price →
      fetch_price_with_retry resp = (some price, 4, 3)) ∧
    (∀ price, resp 0 = .exn → resp 1 = .ok price →
      fetch_price_with_retry resp = (some price, 2, 1)) ∧
    (fetch_price_with_retry resp).2.1 ≤ MAX_RETRIES := by
  refine ⟨rfl, rfl, ?_, ?_, ?_, ?_, ?_, ?_⟩
  · intro h
    simp [fetch_price_with_retry, MAX_RETRIES, fetch_retry_go,
          h 0 (by norm_num), h 1 (by norm_num), h 2 (by norm_num),
          h 3 (by norm_num), h 4 (by norm_num), h 5 (by norm_num)]
  · intro h
    simp [fetch_price_with_retry, MAX_RETRIES, fetch_retry_go, h]
  · intro h
    simp [fetch_price_with_retry, MAX_RETRIES, fetch_retry_go, h]
  · intro price h0 h1 h2 h3
    simp [fetch_price_with_retry, MAX_RETRIES, fetch_retry_go, h0, h1, h2, h3]
  · intro price h0 h1
    simp [fetch_price_with_retry, MAX_RETRIES, fetch_retry_go, h0, h1]
  · have := fetch_retry_go_attempts_le resp MAX_RETRIES 0 0
    simpa [fetch_price_with_retry] using this

/-- Witness for C7 amended: an all-429 date is skipped after 6 attempts
and 5 sleeps; three 429s then a 200 record the price on the 4th attempt. -/
theorem claim_C7_retry_policy_witness :
    fetch_price_with_retry (fun _ => .rateLimited) = (none, 6, 5) ∧
    fetch_price_with_retry (fun k => if k < 3 then .rateLimited else .ok 7) =
      (some 7, 4, 3) := by
  refine ⟨(claim_C7_retry_policy (fun _ => .rateLimited)).2.2.1 (fun k _ => rfl), ?_⟩
  exact (claim_C7_retry_policy (fun k => if k < 3 then .rateLimited else .ok 7)).2.2.2.2.2.1
    7 (by decide) (by decide) (by decide) (by decide)

/-- C1: the spec's adaptive halving is the intent the code itself states
("try with a smaller batch size"), but the initial `batch_size` of 500 is
already below the halving threshold of 1000, so the very first capacity
failure takes the skip branch: on this chain the 0-500 query fails, the
provider would serve either 250-block half (the event at block 100
included), yet the scan skips the whole sub-range, resets `batch_size` to
20000, and returns no events — not the output of a smaller-batch run. -/
theorem claim_C1_skip_not_halve :
    get_all_transfer_events capacity_limited_chain 0 10 = .ok [] ∧
    capacity_limited_chain.getLogs 0 500 = .error () ∧
    capacity_limited_chain.getLogs 0 250 = .ok [⟨"A", "B", 1, 100, "t"⟩] ∧
    capacity_limited_chain.getLogs 251 501 = .ok [] := by
  exact ⟨rfl, rfl, rfl, rfl⟩

/-- C8 counterexample: with an unparseable checkpoint record on disk and a
saved event file, the run does not abort — `get_latest_recorded_block`
swallows the parse error into checkpoint 0, the incremental path scans
from block 1 and commits a fresh checkpoint; likewise an unparseable
price cache loads as the empty mapping. -/
theorem claim_C8_counterexample :
    get_latest_recorded_block .malformed = 0 ∧
    load_cached_prices .malformed = ([] : List (Nat × ℚ)) ∧
    load_transfer_events ⟨2, fun _ _ => .ok []⟩
        ⟨[(1, [⟨"A", "B", 1, 1, "t"⟩])], .malformed⟩ 5 =
      .ok ([⟨"A", "B", 1, 1, "t"⟩],
           ⟨[(2, [⟨"A", "B", 1, 1, "t"⟩]), (1, [⟨"A", "B", 1, 1, "t"⟩])],
            .valid (some 2)⟩,
           [.saveEvents 2 [⟨"A", "B", 1, 1, "t"⟩], .commitRecord 2]) := by
  exact ⟨rfl, rfl, rfl⟩

/-- C8 amended: malformed persisted state is tolerated rather than fatal:
an unparseable `event_log_record.json` is treated exactly like a missing
one (checkpoint 0, so the incremental run proceeds and re-scans from
block 1), and an unparseable price cache is treated exactly like a
missing one (empty mapping, prices re-fetched); the run continues in both
cases. -/
theorem claim_C8_malformed_tolerated (w3 : Chain)
    (files : List (Nat × List TransferEvent)) (fuel : Nat)
    (resp : Nat → Nat → PriceResp) (start_date end_date : Nat) :
    get_latest_recorded_block .malformed = 0 ∧
    get_latest_recorded_block .missing = 0 ∧
    load_cached_prices .malformed = ([] : List (Nat × ℚ)) ∧
    load_cached_prices .missing = ([] : List (Nat × ℚ)) ∧
    run_output (load_transfer_events w3 ⟨files, .malformed⟩ fuel) =
      run_output (load_transfer_events w3 ⟨files, .missing⟩ fuel) ∧
    get_historical_prices resp .malformed start_date end_date =
      get_historical_prices resp .missing start_date end_date := by
  refine ⟨rfl, rfl, rfl, rfl, ?_, rfl⟩
  cases files with
  | nil => rfl
  | cons f rest =>
    simp only [load_transfer_events, get_latest_recorded_block]
    by_cases hlt : (0 : Nat) < w3.block_number
    · rw [if_pos hlt, if_pos hlt]
    · rw [if_neg hlt, if_neg hlt]
      rfl

/-- C9: calling the scanner with `from_block` equal to the chain head makes
the progress expression of line 55 divide by zero before any events are
returned; this arises on an incremental re-run whose checkpoint is exactly
one block behind the head, since `load_transfer_events` resumes from
checkpoint + 1. -/
theorem claim_C9_zero_division (w3 : Chain) (from_block fuel : Nat)
    (w : World) (hfuel : 0 < fuel) (heq : w3.block_number = from_block)
    (hfiles : w.eventFiles ≠ [])
    (hbehind : get_latest_recorded_block w.record + 1 = w3.block_number) :
    get_all_transfer_events w3 from_block fuel = .error .zeroDivision ∧
    load_transfer_events w3 w fuel = .error .zeroDivision := by
  have hscan : ∀ fb, w3.block_number = fb →
      get_all_transfer_events w3 fb fuel = .error .zeroDivision := by
    intro fb hfb
    cases fuel with
    | zero => omega
    | succ n => simp [get_all_transfer_events, scan_loop, hfb]
  refine ⟨hscan from_block heq, ?_⟩
  cases hf : w.eventFiles with
  | nil => exact absurd hf hfiles
  | cons f rest =>
    have hlt : get_latest_recorded_block w.record < w3.block_number := by omega
    simp only [load_transfer_events, hf]
    rw [if_pos hlt, hscan (get_latest_recorded_block w.record + 1) hbehind.symm]

/-- Witness for C9: head 5, checkpoint 4: the re-run from block 5 crashes
with the zero division. -/
theorem claim_C9_zero_division_witness :
    get_all_transfer_events ⟨5, fun _ _ => .ok []⟩ 5 1 = .error .zeroDivision ∧
    load_transfer_events ⟨5, fun _ _ => .ok []⟩ ⟨[(4, [])], .valid (some 4)⟩ 1 =
      .error .zeroDivision := by
  exact claim_C9_zero_division ⟨5, fun _ _ => .ok []⟩ 5 1 ⟨[(4, [])], .valid (some 4)⟩
    (by decide) rfl (by decide) rfl

/-- C10: on the initial-scan path (no existing event file) `main` fetches
and saves the transfer events but never writes the checkpoint record —
the record file is untouched and still reads as checkpoint 0 — so the
immediately following run takes the incremental path, re-scans from
block 1, appends the newly fetched events to the already-saved ones, and
only there commits a checkpoint, doing so after saving the events. -/
theorem claim_C10_initial_scan_no_checkpoint (w3 : Chain)
    (dex_addresses user_addresses : List String)
    (decimals from_block fuel : Nat) (E1 E2 : List TransferEvent)
    (h1 : get_all_transfer_events w3 from_block fuel = .ok E1)
    (hhead : 0 < w3.block_number)
    (h2 : get_all_transfer_events w3 1 fuel = .ok E2) :
    main_run w3 dex_addresses user_addresses decimals from_block
        ⟨[], .missing⟩ fuel =
      .ok (process_transfer_events E1 dex_addresses user_addresses decimals,
           ⟨[(w3.block_number, E1)], .missing⟩,
           [.saveEvents w3.block_number E1,
            .saveTradeHistory
              (process_transfer_events E1 dex_addresses user_addresses decimals)]) ∧
    get_latest_recorded_block (JsonFile.missing) = 0 ∧
    load_transfer_events w3 ⟨[(w3.block_number, E1)], .missing⟩ fuel =
      .ok (E1 ++ E2,
           ⟨[(w3.block_number, E1 ++ E2), (w3.block_number, E1)],
            .valid (some w3.block_number)⟩,
           [.saveEvents w3.block_number (E1 ++ E2),
            .commitRecord w3.block_number]) := by
  have hrun2 : load_transfer_events w3 ⟨[(w3.block_number, E1)], .missing⟩ fuel =
      .ok (E1 ++ E2,
           ⟨[(w3.block_number, E1 ++ E2), (w3.block_number, E1)],
            .valid (some w3.block_number)⟩,
           [.saveEvents w3.block_number (E1 ++ E2),
            .commitRecord w3.block_number]) := by
    have hlt : get_latest_recorded_block JsonFile.missing < w3.block_number := hhead
    simp only [load_transfer_events, get_latest_recorded_block, pick_latest_file, List.foldl]
    rw [if_pos hhead, show (0 : Nat) + 1 = 1 from rfl, h2]
  refine ⟨?_, rfl, hrun2⟩
  unfold main_run
  rw [show load_transfer_events w3 ⟨[], .missing⟩ fuel = .ok ([], ⟨[], .missing⟩, []) from rfl]
  simp only [List.isEmpty_nil, if_true, h1, List.nil_append]

/-- Witness for C10: a two-block chain with one transfer at block 1.  The
initial run saves the event without a checkpoint; the next run re-scans
from block 1 and stores the same event twice. -/
theorem claim_C10_initial_scan_no_checkpoint_witness :
    main_run ⟨2, fun a b => .ok (if a ≤ 1 ∧ 1 ≤ b then [⟨"A", "B", 3, 1, "t"⟩] else [])⟩
        [] [] 0 0 ⟨[], .missing⟩ 1 =
      .ok ([], ⟨[(2, [⟨"A", "B", 3, 1, "t"⟩])], .missing⟩,
           [.saveEvents 2 [⟨"A", "B", 3, 1, "t"⟩], .saveTradeHistory []]) ∧
    load_transfer_events
        ⟨2, fun a b => .ok (if a ≤ 1 ∧ 1 ≤ b then [⟨"A", "B", 3, 1, "t"⟩] else [])⟩
        ⟨[(2, [⟨"A", "B", 3, 1, "t"⟩])], .missing⟩ 1 =
      .ok ([⟨"A", "B", 3, 1, "t"⟩, ⟨"A", "B", 3, 1, "t"⟩],
           ⟨[(2, [⟨"A", "B", 3, 1, "t"⟩, ⟨"A", "B", 3, 1, "t"⟩]),
             (2, [⟨"A", "B", 3, 1, "t"⟩])], .valid (some 2)⟩,
           [.saveEvents 2 [⟨"A", "B", 3, 1, "t"⟩, ⟨"A", "B", 3, 1, "t"⟩],
            .commitRecord 2]) := by
  have h := claim_C10_initial_scan_no_checkpoint
    ⟨2, fun a b => .ok (if a ≤ 1 ∧ 1 ≤ b then [⟨"A", "B", 3, 1, "t"⟩] else [])⟩
    [] [] 0 0 1 [⟨"A", "B", 3, 1, "t"⟩] [⟨"A", "B", 3, 1, "t"⟩] rfl (by decide) rfl
  exact ⟨h.1, h.2.2⟩

end Toolbox
